import Mathlib

/-!
Shallow embedding of the gene-pruning pipeline of `utils/model_building.py`
and of the TAIR-id extraction of `utils/utilities.py`, together with
theorems settling the specification claims about them.

Gene identifiers are modelled as an abstract type `α` with decidable
equality (the Python code only ever compares identifiers for equality and
collects them into sets).  Growth values returned by the external deletion
routines are modelled as integers; the pipeline only compares them for
(in)equality with the sentinel `10`.
-/

set_option linter.unusedSectionVars false

namespace BuildModel

variable {α : Type} [DecidableEq α] [Inhabited α]

/-- A gene of a cobra model: the pipeline only reads its `id` attribute. -/
structure Gene (α : Type) where
  id : α
deriving DecidableEq, Repr

/-- A reaction of a cobra model, as seen by `get_exchange_genes`: only the
list of associated genes is read. -/
structure Reaction (α : Type) where
  genes : List (Gene α)
deriving DecidableEq, Repr

/-- The read view of a cobra model used by the pruning pipeline, together
with the growth oracles of the external flux-analysis library:
`sgdGrowth g` is the growth value the single-gene-deletion routine reports
for deleting gene `g` alone, and `dgdGrowth g1 g2` the growth value the
double-gene-deletion routine reports for jointly deleting `g1` and `g2`. -/
structure Model (α : Type) where
  genes : List (Gene α)
  exchanges : List (Reaction α)
  sgdGrowth : α → Int
  dgdGrowth : α → α → Int

/-- External routine `cobra.flux_analysis.single_gene_deletion(model)`:
one result row per gene of the model (all genes, since no `gene_list`
argument is passed), each row holding the `ids` set (a singleton) and the
`growth` value. -/
def single_gene_deletion (M : Model α) : List (List α × Int) :=
  M.genes.map fun g => ([g.id], M.sgdGrowth g.id)

/-- `get_essential_genes` (model_building.py lines 57-70): keep the rows
whose growth differs from 10 and extract the single gene id of each. -/
def get_essential_genes (M : Model α) : List α :=
  ((single_gene_deletion M).filter fun row => row.2 != 10).map fun row => row.1.headI

/-- `get_exchange_genes` (model_building.py lines 72-87): collect the gene
ids of every exchange reaction, flatten, and deduplicate (`list(set(..))`). -/
def get_exchange_genes (M : Model α) : List α :=
  ((M.exchanges.map fun r => r.genes.map Gene.id).flatten).dedup

/-- The `ids` set of a result row of the pairwise deletion routine: the
frozenset `{g1, g2}`, a singleton when `g1 = g2`. -/
def pairIds (g1 g2 : α) : List α :=
  if g1 = g2 then [g1] else [g1, g2]

/-- External routine `cobra.flux_analysis.double_gene_deletion(model,
gene_list1, gene_list2)`: one row per pair drawn from the two gene lists,
holding the `ids` set and the joint-deletion `growth` value. -/
def double_gene_deletion (M : Model α) (l1 l2 : List α) : List (List α × Int) :=
  l1.flatMap fun g1 => l2.map fun g2 => (pairIds g1 g2, M.dgdGrowth g1 g2)

/-- `get_synthetic_lethals` (model_building.py lines 89-102): call the
pairwise deletion routine with both gene lists set to `genes_to_remove`,
keep the rows whose growth differs from 10, and flatten their id sets. -/
def get_synthetic_lethals (M : Model α) (genes_to_remove : List α) : List α :=
  ((double_gene_deletion M genes_to_remove genes_to_remove).filter
    fun row => row.2 != 10).flatMap fun row => row.1

/-- A Python `set` built from a list is modelled as the deduplicated list
(iteration order of a Python set is arbitrary; every property stated below
is order-independent and phrased through `toFinset`).  Set difference
`set(xs) - set(ys)` becomes the deduplicated `xs` with members of `ys` dropped. -/
def setDiff (xs ys : List α) : List α :=
  xs.dedup.filter fun a => a ∉ ys

/-- Essentiality screen, line 118 of model_building.py:
`genes_to_remove = set([g.id for g in genes_to_remove]) - set(essential_genes)`. -/
def screen_essential (M : Model α) (candidates : List α) : List α :=
  setDiff candidates (get_essential_genes M)

/-- Exchange screen, line 121 of model_building.py:
`genes_to_remove = set(genes_to_remove) - set(exchanges_genes)`. -/
def screen_exchange (M : Model α) (candidates : List α) : List α :=
  setDiff candidates (get_exchange_genes M)

/-- Synthetic-lethality screen, lines 122-123 of model_building.py: the
pairwise routine is invoked on the current candidate set itself, and the
flagged genes are subtracted from it. -/
def screen_synthetic_lethal (M : Model α) (candidates : List α) : List α :=
  setDiff candidates (get_synthetic_lethals M candidates)

/-- `prune_genes_to_remove` (model_building.py lines 104-124): the three
screens applied in the fixed order essential, exchange, synthetic-lethal,
starting from the ids of the candidate gene list. -/
def prune_genes_to_remove (M : Model α) (genes_to_remove : List (Gene α)) : List α :=
  screen_synthetic_lethal M
    (screen_exchange M
      (screen_essential M (genes_to_remove.map Gene.id)))

/-- The target-gene computation inlined at line 45 of model_building.py:
`list(set(df['TAIR_ID'].drop_duplicates().dropna().to_list()))`.  The
`TAIR_ID` column is a list of optional gene ids (`none` models a null). -/
def get_target_genes (col : List (Option α)) : List α :=
  ((col.dedup).filterMap id).dedup

set_option linter.unusedVariables false in
/-- Lines 48-55 of `get_model_genes_to_remove`, parameterised by the
target-gene list: map the targets to the model, then return every model
gene whose id was not matched.  `verbose` only controls printing in the
source and is unread here. -/
def compute_genes_to_remove (M : Model α) (target_genes : List α)
    (verbose : Bool) : List (Gene α) :=
  let target_model_genes := (M.genes.filter fun g => g.id ∈ target_genes).map Gene.id
  M.genes.filter fun g => g.id ∉ target_model_genes

/-- `get_model_genes_to_remove` (model_building.py lines 31-55): derive
the target genes from the mapping's `TAIR_ID` column, then compute the
complement inside the model. -/
def get_model_genes_to_remove (col : List (Option α)) (M : Model α)
    (verbose : Bool) : List (Gene α) :=
  compute_genes_to_remove M (get_target_genes col) verbose

/-- The set of identifiers of the model's genes. -/
def modelGeneIds (M : Model α) : Finset α :=
  (M.genes.map Gene.id).toFinset

/-! Embedding of `utils/utilities.py`.  Python strings are modelled as
`List Char`.  `find_elements_between` runs `re.findall` with the lazy
pattern between square brackets: at each `[` the engine captures the
shortest run of non-newline characters up to the next `]` (failing if a
newline intervenes) and resumes scanning after that `]`. -/

/-- One lazy match attempt after an opening bracket: returns the captured
content and the remainder after the closing bracket, or `none` when no
closing bracket is reachable without crossing a newline (`.` does not
match a newline). -/
def findClose : List Char → Option (List Char × List Char)
  | [] => none
  | c :: cs =>
    if c = ']' then some ([], cs)
    else if c = '\n' then none
    else
      match findClose cs with
      | some (content, rest) => some (c :: content, rest)
      | none => none

theorem findClose_length : ∀ {cs : List Char} {content rest : List Char},
    findClose cs = some (content, rest) → rest.length < cs.length := by
  intro cs
  induction cs with
  | nil => intro content rest h; simp [findClose] at h
  | cons c cs ih =>
    intro content rest h
    simp only [findClose] at h
    split at h
    · cases h
      simp
    · split at h
      · cases h
      · cases hrec : findClose cs with
        | none => rw [hrec] at h; cases h
        | some p =>
          rw [hrec] at h
          cases h
          exact Nat.lt_succ_of_lt (ih hrec)

set_option linter.unusedVariables false in
/-- `find_elements_between` (utilities.py lines 38-50):
`re.findall(r'\[(.*?)\]', text)`. -/
def find_elements_between (s : List Char) : List (List Char) :=
  match s with
  | [] => []
  | c :: cs =>
    if c = '[' then
      match h : findClose cs with
      | some (content, rest) => content :: find_elements_between rest
      | none => find_elements_between cs
    else find_elements_between cs
termination_by s.length
decreasing_by
  · exact Nat.lt_succ_of_lt (findClose_length h)
  · exact Nat.lt_succ_self _
  · exact Nat.lt_succ_self _

/-- Python `str.startswith(pat)` on character lists. -/
def startsWith : List Char → List Char → Bool
  | [], _ => true
  | _ :: _, [] => false
  | p :: ps, c :: cs => p == c && startsWith ps cs

/-- The comma-separated cross references of a bracketed descriptor:
`i.split('=')[-1].split(',')` (utilities.py line 68). -/
def crossRefsOf (elem : List Char) : List (List Char) :=
  ((elem.splitOn '=').getLastD []).splitOn ','

/-- The inner loop of `get_tair_id_from_description` (utilities.py lines
69-71): the first cross reference starting with `TAIR:` yields the text
after its last colon, `j.split(':')[-1]`. -/
def tairOfCrossRefs : List (List Char) → Option (List Char)
  | [] => none
  | j :: js =>
    if startsWith ("TAIR:".toList) j then some ((j.splitOn ':').getLastD [])
    else tairOfCrossRefs js

/-- The outer loop of `get_tair_id_from_description` (utilities.py lines
66-71): scan the bracketed descriptors; a descriptor starting with
`db_xref=` whose cross references contain a `TAIR:` entry returns that
entry's id, otherwise the scan continues; falling off the loop returns
`None`. -/
def tairOfDescriptors : List (List Char) → Option (List Char)
  | [] => none
  | i :: is =>
    if startsWith ("db_xref=".toList) i then
      match tairOfCrossRefs (crossRefsOf i) with
      | some t => some t
      | none => tairOfDescriptors is
    else tairOfDescriptors is

/-- `get_tair_id_from_description` (utilities.py lines 52-71). -/
def get_tair_id_from_description (description : List Char) : Option (List Char) :=
  tairOfDescriptors (find_elements_between description)

/-- A bracketed element "matches" when it starts with `db_xref=` and its
comma-separated cross references include one starting with `TAIR:`. -/
def hasTairRef (elem : List Char) : Bool :=
  startsWith ("db_xref=".toList) elem &&
    (crossRefsOf elem).any (startsWith ("TAIR:".toList))

/-- The claim's description of the TAIR lookup, written from its words:
take the first matching `db_xref=` element, its first `TAIR:` cross
reference, and the substring after the last `:`; `none` when no element
matches. -/
def tair_id_described (description : List Char) : Option (List Char) :=
  ((find_elements_between description).find? hasTairRef).bind fun elem =>
    ((crossRefsOf elem).find? (startsWith ("TAIR:".toList))).map fun j =>
      (j.splitOn ':').getLastD []

/-! State-passing variants of the pruning pipeline, used to express the
frame property.  Every statement of `prune_genes_to_remove` either reads
the model or manipulates local sets; the external deletion analyses knock
genes out inside a context that restores the model before returning, so
each variant returns the model it was given. -/

/-- State-passing `single_gene_deletion`: result rows plus the model the
caller continues with. -/
def single_gene_deletionS (M : Model α) : List (List α × Int) × Model α :=
  (single_gene_deletion M, M)

/-- State-passing `double_gene_deletion`. -/
def double_gene_deletionS (M : Model α) (l1 l2 : List α) :
    List (List α × Int) × Model α :=
  (double_gene_deletion M l1 l2, M)

/-- State-passing `get_essential_genes`. -/
def get_essential_genesS (M : Model α) : List α × Model α :=
  let p := single_gene_deletionS M
  ((p.1.filter fun row => row.2 != 10).map fun row => row.1.headI, p.2)

/-- State-passing `get_exchange_genes`: reads `model.exchanges` only. -/
def get_exchange_genesS (M : Model α) : List α × Model α :=
  (get_exchange_genes M, M)

/-- State-passing `get_synthetic_lethals`. -/
def get_synthetic_lethalsS (M : Model α) (genes_to_remove : List α) :
    List α × Model α :=
  let p := double_gene_deletionS M genes_to_remove genes_to_remove
  ((p.1.filter fun row => row.2 != 10).flatMap fun row => row.1, p.2)

/-- State-passing `prune_genes_to_remove`, threading the model through the
three screening calls exactly as the source issues them. -/
def prune_genes_to_removeS (M : Model α) (genes_to_remove : List (Gene α)) :
    List α × Model α :=
  let pe := get_essential_genesS M
  let c1 := setDiff (genes_to_remove.map Gene.id) pe.1
  let px := get_exchange_genesS pe.2
  let c2 := setDiff c1 px.1
  let ps := get_synthetic_lethalsS px.2 c2
  (setDiff c2 ps.1, ps.2)

/-! Concrete instances used by the witness theorems: a model with four
genes, of which gene 2 is essential (growth 0 under single deletion),
gene 3 sits on the only exchange reaction, and no pair is synthetic
lethal. -/

/-- Witness model. -/
def Mw : Model Nat where
  genes := [⟨1⟩, ⟨2⟩, ⟨3⟩, ⟨4⟩]
  exchanges := [⟨[⟨3⟩]⟩]
  sgdGrowth := fun g => if g = 2 then 0 else 10
  dgdGrowth := fun _ _ => 10

/-- Witness candidate list: all four genes. -/
def gtrW : List (Gene Nat) := [⟨1⟩, ⟨2⟩, ⟨3⟩, ⟨4⟩]

/-! Membership characterisations of the screening primitives. -/

theorem mem_setDiff {xs ys : List α} {a : α} :
    a ∈ setDiff xs ys ↔ a ∈ xs ∧ a ∉ ys := by
  simp [setDiff, List.mem_filter, List.mem_dedup]

theorem toFinset_setDiff (xs ys : List α) :
    (setDiff xs ys).toFinset = xs.toFinset \ ys.toFinset := by
  ext a
  simp [mem_setDiff, Finset.mem_sdiff]

theorem mem_get_essential_genes {M : Model α} {a : α} :
    a ∈ get_essential_genes M ↔
      ∃ g ∈ M.genes, g.id = a ∧ M.sgdGrowth g.id ≠ 10 := by
  simp [get_essential_genes, single_gene_deletion, List.mem_map,
    List.mem_filter]
  aesop

theorem mem_get_exchange_genes {M : Model α} {a : α} :
    a ∈ get_exchange_genes M ↔
      ∃ r ∈ M.exchanges, ∃ g ∈ r.genes, g.id = a := by
  simp [get_exchange_genes, List.mem_dedup, List.mem_flatten, List.mem_map]

theorem mem_pairIds {g1 g2 a : α} :
    a ∈ pairIds g1 g2 ↔ a = g1 ∨ a = g2 := by
  by_cases h : g1 = g2 <;> simp [pairIds, h]

theorem mem_get_synthetic_lethals {M : Model α} {l : List α} {a : α} :
    a ∈ get_synthetic_lethals M l ↔
      ∃ g1 ∈ l, ∃ g2 ∈ l, M.dgdGrowth g1 g2 ≠ 10 ∧ (a = g1 ∨ a = g2) := by
  simp only [get_synthetic_lethals, double_gene_deletion, List.mem_flatMap,
    List.mem_filter, List.mem_map, bne_iff_ne, ne_eq]
  constructor
  · rintro ⟨row, ⟨⟨g1, hg1, g2, hg2, rfl⟩, hgrowth⟩, ha⟩
    exact ⟨g1, hg1, g2, hg2, hgrowth, mem_pairIds.mp ha⟩
  · rintro ⟨g1, hg1, g2, hg2, hne, ha⟩
    exact ⟨(pairIds g1 g2, M.dgdGrowth g1 g2),
      ⟨⟨g1, hg1, g2, hg2, rfl⟩, hne⟩, mem_pairIds.mpr ha⟩

theorem mem_compute_genes_to_remove {M : Model α} {T : List α} {v : Bool}
    {g : Gene α} :
    g ∈ compute_genes_to_remove M T v ↔ g ∈ M.genes ∧ g.id ∉ T := by
  simp [compute_genes_to_remove, List.mem_filter, List.mem_map]
  aesop

theorem mem_prune_genes_to_remove {M : Model α} {gtr : List (Gene α)} {a : α} :
    a ∈ prune_genes_to_remove M gtr ↔
      a ∈ gtr.map Gene.id ∧
      a ∉ get_essential_genes M ∧
      a ∉ get_exchange_genes M ∧
      a ∉ get_synthetic_lethals M
        (screen_exchange M (screen_essential M (gtr.map Gene.id))) := by
  simp only [prune_genes_to_remove, screen_synthetic_lethal, screen_exchange,
    screen_essential, mem_setDiff]
  tauto

theorem toFinset_screen_essential (M : Model α) (c : List α) :
    (screen_essential M c).toFinset =
      c.toFinset \ (get_essential_genes M).toFinset :=
  toFinset_setDiff c (get_essential_genes M)

theorem toFinset_screen_exchange (M : Model α) (c : List α) :
    (screen_exchange M c).toFinset =
      c.toFinset \ (get_exchange_genes M).toFinset :=
  toFinset_setDiff c (get_exchange_genes M)

theorem toFinset_screen_synthetic_lethal (M : Model α) (c : List α) :
    (screen_synthetic_lethal M c).toFinset =
      c.toFinset \ (get_synthetic_lethals M c).toFinset :=
  toFinset_setDiff c (get_synthetic_lethals M c)

/-! The claim theorems. -/

/-- C3: the essentiality screen queries the single-gene-deletion routine
over ALL genes of the model (the result rows enumerate exactly the model's
genes), classifies a gene essential exactly when its growth value differs
from the sentinel 10, and its output is the candidate set minus the genes
so classified. -/
theorem essential_screen_spec (M : Model α) (c : List α) :
    (single_gene_deletion M).map Prod.fst = M.genes.map (fun g => [g.id]) ∧
    (∀ a, a ∈ get_essential_genes M ↔
      ∃ g ∈ M.genes, g.id = a ∧ M.sgdGrowth g.id ≠ 10) ∧
    (screen_essential M c).toFinset =
      c.toFinset \ (get_essential_genes M).toFinset := by
  refine ⟨?_, fun a => mem_get_essential_genes, toFinset_screen_essential M c⟩
  simp [single_gene_deletion, List.map_map, Function.comp]

/-- C4: each of the three screens returns a subset of its input candidate
set (hence of no greater cardinality), and the final output of
`prune_genes_to_remove` is a subset of the initial candidates. -/
theorem screens_shrink (M : Model α) (c : List α) (gtr : List (Gene α)) :
    (screen_essential M c).toFinset ⊆ c.toFinset ∧
    (screen_essential M c).toFinset.card ≤ c.toFinset.card ∧
    (screen_exchange M c).toFinset ⊆ c.toFinset ∧
    (screen_exchange M c).toFinset.card ≤ c.toFinset.card ∧
    (screen_synthetic_lethal M c).toFinset ⊆ c.toFinset ∧
    (screen_synthetic_lethal M c).toFinset.card ≤ c.toFinset.card ∧
    (prune_genes_to_remove M gtr).toFinset ⊆ (gtr.map Gene.id).toFinset := by
  have he : (screen_essential M c).toFinset ⊆ c.toFinset := by
    rw [toFinset_screen_essential]; exact Finset.sdiff_subset
  have hx : (screen_exchange M c).toFinset ⊆ c.toFinset := by
    rw [toFinset_screen_exchange]; exact Finset.sdiff_subset
  have hs : ∀ c' : List α,
      (screen_synthetic_lethal M c').toFinset ⊆ c'.toFinset := by
    intro c'
    rw [toFinset_screen_synthetic_lethal]; exact Finset.sdiff_subset
  refine ⟨he, Finset.card_le_card he, hx, Finset.card_le_card hx,
    hs c, Finset.card_le_card (hs c), ?_⟩
  intro _a ha
  have h1 := hs (screen_exchange M (screen_essential M (gtr.map Gene.id))) ha
  rw [toFinset_screen_exchange] at h1
  have h2 := Finset.sdiff_subset h1
  rw [toFinset_screen_essential] at h2
  exact Finset.sdiff_subset h2

/-- C5: `prune_genes_to_remove` applies the screens in the fixed order
essential, exchange, synthetic-lethal; the pairwise routine is invoked
with both gene lists equal to the essential/exchange-filtered candidate
set, a gene is flagged exactly when it appears in a pair (drawn from that
set) whose joint-deletion growth differs from 10, and the screen's output
is that set minus the flagged genes. -/
theorem prune_order_and_lethal_spec (M : Model α) (gtr : List (Gene α))
    (c : List α) :
    prune_genes_to_remove M gtr =
      screen_synthetic_lethal M
        (screen_exchange M (screen_essential M (gtr.map Gene.id))) ∧
    prune_genes_to_remove M gtr =
      setDiff (screen_exchange M (screen_essential M (gtr.map Gene.id)))
        (get_synthetic_lethals M
          (screen_exchange M (screen_essential M (gtr.map Gene.id)))) ∧
    (screen_synthetic_lethal M c).toFinset =
      c.toFinset \ (get_synthetic_lethals M c).toFinset ∧
    (∀ a, a ∈ get_synthetic_lethals M c ↔
      ∃ g1 ∈ c, ∃ g2 ∈ c, M.dgdGrowth g1 g2 ≠ 10 ∧ (a = g1 ∨ a = g2)) :=
  ⟨rfl, rfl, toFinset_screen_synthetic_lethal M c,
    fun _a => mem_get_synthetic_lethals⟩

/-- C8: the verbose flag of `compute_genes_to_remove` is purely
observational: the returned gene list is identical for both flag values. -/
theorem compute_genes_to_remove_verbose_irrelevant (M : Model α)
    (T : List α) :
    compute_genes_to_remove M T true = compute_genes_to_remove M T false :=
  rfl

/-- C9: `prune_genes_to_remove` does not mutate the model: threading the
model state through every call of the pipeline returns it unchanged (in
particular its genes, reactions and their gene associations), and the
computed output agrees with the plain function. -/
theorem prune_genes_to_remove_frame (M : Model α) (gtr : List (Gene α)) :
    (prune_genes_to_removeS M gtr).2 = M ∧
    (prune_genes_to_removeS M gtr).2.genes = M.genes ∧
    (prune_genes_to_removeS M gtr).2.exchanges = M.exchanges ∧
    (prune_genes_to_removeS M gtr).1 = prune_genes_to_remove M gtr :=
  ⟨rfl, rfl, rfl, rfl⟩

/-- C1: the final output of `prune_genes_to_remove` never contains a gene
classified essential by the single-gene-deletion screen, a gene associated
with an exchange reaction, or a gene of a synthetic-lethal pair identified
by the pairwise screen at the time of final output; in particular every
model gene in the output has growth value exactly the sentinel 10 under
single deletion. -/
theorem prune_excludes_unsafe_genes (M : Model α) (gtr : List (Gene α)) :
    Disjoint (prune_genes_to_remove M gtr).toFinset
      (get_essential_genes M).toFinset ∧
    Disjoint (prune_genes_to_remove M gtr).toFinset
      (get_exchange_genes M).toFinset ∧
    Disjoint (prune_genes_to_remove M gtr).toFinset
      (get_synthetic_lethals M
        (screen_exchange M (screen_essential M (gtr.map Gene.id)))).toFinset ∧
    ∀ a ∈ prune_genes_to_remove M gtr, a ∈ M.genes.map Gene.id →
      M.sgdGrowth a = 10 := by
  refine ⟨Finset.disjoint_left.mpr ?_, Finset.disjoint_left.mpr ?_,
    Finset.disjoint_left.mpr ?_, ?_⟩
  · intro a ha hb
    rw [List.mem_toFinset] at ha hb
    exact (mem_prune_genes_to_remove.mp ha).2.1 hb
  · intro a ha hb
    rw [List.mem_toFinset] at ha hb
    exact (mem_prune_genes_to_remove.mp ha).2.2.1 hb
  · intro a ha hb
    rw [List.mem_toFinset] at ha hb
    exact (mem_prune_genes_to_remove.mp ha).2.2.2 hb
  · intro a ha hmem
    by_contra hne
    rcases List.mem_map.mp hmem with ⟨g, hg, hid⟩
    exact (mem_prune_genes_to_remove.mp ha).2.1
      (mem_get_essential_genes.mpr ⟨g, hg, hid, by rw [hid]; exact hne⟩)

/-- C2: the output of `compute_genes_to_remove` and the model gene ids
found among the targets are disjoint and partition the model's gene ids;
an empty target set slates every model gene for removal and a target set
covering all model gene ids slates none. -/
theorem compute_genes_to_remove_partition (M : Model α) (T : List α)
    (v : Bool) :
    Disjoint ((compute_genes_to_remove M T v).map Gene.id).toFinset
      (modelGeneIds M ∩ T.toFinset) ∧
    ((compute_genes_to_remove M T v).map Gene.id).toFinset ∪
      (modelGeneIds M ∩ T.toFinset) = modelGeneIds M ∧
    compute_genes_to_remove M [] v = M.genes ∧
    (modelGeneIds M ⊆ T.toFinset → compute_genes_to_remove M T v = []) := by
  have hmem : ∀ a, a ∈ (compute_genes_to_remove M T v).map Gene.id ↔
      a ∈ M.genes.map Gene.id ∧ a ∉ T := by
    intro a
    constructor
    · intro ha
      rcases List.mem_map.mp ha with ⟨g, hg, rfl⟩
      have h := mem_compute_genes_to_remove.mp hg
      exact ⟨List.mem_map.mpr ⟨g, h.1, rfl⟩, h.2⟩
    · rintro ⟨hmm, hT⟩
      rcases List.mem_map.mp hmm with ⟨g, hg, rfl⟩
      exact List.mem_map.mpr ⟨g, mem_compute_genes_to_remove.mpr ⟨hg, hT⟩, rfl⟩
  refine ⟨Finset.disjoint_left.mpr ?_, ?_, by simp [compute_genes_to_remove], ?_⟩
  · intro a ha hb
    rw [List.mem_toFinset] at ha
    have hT := (Finset.mem_inter.mp hb).2
    rw [List.mem_toFinset] at hT
    exact ((hmem a).mp ha).2 hT
  · ext a
    simp only [Finset.mem_union, Finset.mem_inter, List.mem_toFinset,
      modelGeneIds, hmem a]
    by_cases hT : a ∈ T <;> tauto
  · intro hsub
    rw [List.eq_nil_iff_forall_not_mem]
    intro g hg
    have h := mem_compute_genes_to_remove.mp hg
    have hid : g.id ∈ T.toFinset :=
      hsub (by
        rw [modelGeneIds, List.mem_toFinset]
        exact List.mem_map.mpr ⟨g, h.1, rfl⟩)
    exact h.2 (List.mem_toFinset.mp hid)

/-- C6: with the model unchanged and the external deletion routines
returning the same growth values, two successive calls of
`prune_genes_to_remove` yield the same output set. -/
theorem prune_genes_to_remove_deterministic (M M' : Model α)
    (gtr : List (Gene α))
    (hg : M.genes = M'.genes) (hx : M.exchanges = M'.exchanges)
    (hs : ∀ a, M.sgdGrowth a = M'.sgdGrowth a)
    (hd : ∀ a b, M.dgdGrowth a b = M'.dgdGrowth a b) :
    prune_genes_to_remove M gtr = prune_genes_to_remove M' gtr := by
  have hM : M = M' := by
    cases M with
    | mk g x s d =>
      cases M' with
      | mk g' x' s' d' =>
        simp only at hg hx hs hd
        subst hg
        subst hx
        congr 1
        · exact funext hs
        · exact funext fun a => funext fun b => hd a b
  rw [hM]

/-- C7: the target-gene set computed from a mapping column has no null
and no duplicate entries, contains exactly the non-null values of the
column, and as a set does not depend on the order of the column. -/
theorem get_target_genes_spec (col : List (Option α)) :
    (get_target_genes col).Nodup ∧
    (∀ a, a ∈ get_target_genes col ↔ some a ∈ col) ∧
    (∀ col' : List (Option α), col.Perm col' →
      (get_target_genes col).toFinset = (get_target_genes col').toFinset) := by
  have hmem : ∀ (c : List (Option α)) (a : α),
      a ∈ get_target_genes c ↔ some a ∈ c := by
    intro c a
    simp [get_target_genes, List.mem_dedup, List.mem_filterMap]
  refine ⟨List.nodup_dedup _, hmem col, ?_⟩
  intro col' hperm
  ext a
  simp only [List.mem_toFinset, hmem]
  exact hperm.mem_iff

theorem prune_excludes_unsafe_genes_witness :
    (1 : Nat) ∈ prune_genes_to_remove Mw gtrW ∧ Mw.sgdGrowth 1 = 10 :=
  ⟨by decide, (prune_excludes_unsafe_genes Mw gtrW).2.2.2 1 (by decide)
    (by decide)⟩

theorem compute_genes_to_remove_partition_witness :
    compute_genes_to_remove Mw [1, 2, 3, 4] true = [] :=
  (compute_genes_to_remove_partition Mw [1, 2, 3, 4] true).2.2.2 (by decide)

theorem prune_genes_to_remove_deterministic_witness :
    prune_genes_to_remove Mw gtrW = prune_genes_to_remove Mw gtrW :=
  prune_genes_to_remove_deterministic Mw Mw gtrW rfl rfl (fun _ => rfl)
    (fun _ _ => rfl)

theorem get_target_genes_spec_witness :
    (get_target_genes [some 1, none, some 2, some (1 : Nat)]).toFinset =
      (get_target_genes [none, some 1, some 2, some (1 : Nat)]).toFinset :=
  (get_target_genes_spec [some 1, none, some 2, some (1 : Nat)]).2.2
    [none, some 1, some 2, some (1 : Nat)] (List.Perm.swap none (some 1) _)

theorem tairOfCrossRefs_eq_find (refs : List (List Char)) :
    tairOfCrossRefs refs =
      (refs.find? (startsWith ("TAIR:".toList))).map fun j =>
        (j.splitOn ':').getLastD [] := by
  induction refs with
  | nil => rfl
  | cons j js ih =>
    simp only [tairOfCrossRefs]
    by_cases h : startsWith ("TAIR:".toList) j = true
    · rw [if_pos h, List.find?_cons_of_pos _ h]
      rfl
    · rw [if_neg h, List.find?_cons_of_neg _ h]
      exact ih

theorem tairOfDescriptors_eq_described (l : List (List Char)) :
    tairOfDescriptors l = (l.find? hasTairRef).bind fun elem =>
      ((crossRefsOf elem).find? (startsWith ("TAIR:".toList))).map fun j =>
        (j.splitOn ':').getLastD [] := by
  induction l with
  | nil => rfl
  | cons i is ih =>
    simp only [tairOfDescriptors]
    by_cases hdb : startsWith ("db_xref=".toList) i = true
    · rw [if_pos hdb]
      cases hfind : (crossRefsOf i).find? (startsWith ("TAIR:".toList)) with
      | none =>
        have hno : hasTairRef i = false := by
          simp only [hasTairRef, hdb, Bool.true_and]
          rw [List.any_eq_false]
          intro j hj
          exact List.find?_eq_none.mp hfind j hj
        have hcr : tairOfCrossRefs (crossRefsOf i) = none := by
          rw [tairOfCrossRefs_eq_find, hfind]
          rfl
        rw [hcr, List.find?_cons_of_neg _ (by rw [hno]; exact Bool.false_ne_true)]
        exact ih
      | some j =>
        have hyes : hasTairRef i = true := by
          simp only [hasTairRef, hdb, Bool.true_and]
          rw [List.any_eq_true]
          exact ⟨j, List.mem_of_find?_eq_some hfind, List.find?_some hfind⟩
        have hcr : tairOfCrossRefs (crossRefsOf i) =
            some ((j.splitOn ':').getLastD []) := by
          rw [tairOfCrossRefs_eq_find, hfind]
          rfl
        have hstep : ((some i).bind fun elem =>
            ((crossRefsOf elem).find? (startsWith ("TAIR:".toList))).map fun j =>
              (j.splitOn ':').getLastD []) =
            ((crossRefsOf i).find? (startsWith ("TAIR:".toList))).map fun j =>
              (j.splitOn ':').getLastD [] := rfl
        rw [hcr, List.find?_cons_of_pos _ hyes, hstep, hfind]
        rfl
    · have hdb' : startsWith ("db_xref=".toList) i = false := by
        cases hcase : startsWith ("db_xref=".toList) i
        · rfl
        · exact absurd hcase hdb
      have hno : hasTairRef i = false := by
        simp only [hasTairRef, hdb', Bool.false_and]
      rw [if_neg hdb,
        List.find?_cons_of_neg _ (by rw [hno]; exact Bool.false_ne_true)]
      exact ih

/-- C10: `get_tair_id_from_description` returns the substring after the
last colon of the first `TAIR:` cross reference of the first bracketed
`db_xref=` element carrying one, and returns `none` exactly when no
bracketed `db_xref=` element has a `TAIR:` cross reference. -/
theorem get_tair_id_spec (d : List Char) :
    get_tair_id_from_description d = tair_id_described d ∧
    (get_tair_id_from_description d = none ↔
      ∀ elem ∈ find_elements_between d, hasTairRef elem = false) := by
  have h1 : get_tair_id_from_description d = tair_id_described d :=
    tairOfDescriptors_eq_described (find_elements_between d)
  refine ⟨h1, ?_⟩
  rw [h1]
  unfold tair_id_described
  cases hf : (find_elements_between d).find? hasTairRef with
  | none =>
    simp only [hf, Option.none_bind, true_iff]
    intro elem hmem
    have := List.find?_eq_none.mp hf elem hmem
    simpa using this
  | some elem =>
    have helem : hasTairRef elem = true := List.find?_some hf
    have hmem : elem ∈ find_elements_between d := List.mem_of_find?_eq_some hf
    have hstep : ((some elem).bind fun e =>
        ((crossRefsOf e).find? (startsWith ("TAIR:".toList))).map fun j =>
          (j.splitOn ':').getLastD []) =
        ((crossRefsOf elem).find? (startsWith ("TAIR:".toList))).map fun j =>
          (j.splitOn ':').getLastD [] := rfl
    apply iff_of_false
    · cases hg : (crossRefsOf elem).find? (startsWith ("TAIR:".toList)) with
      | none =>
        exfalso
        have hany : (crossRefsOf elem).any (startsWith ("TAIR:".toList)) = true := by
          have := helem
          simp only [hasTairRef, Bool.and_eq_true] at this
          exact this.2
        rcases List.any_eq_true.mp hany with ⟨j, hj, hpj⟩
        exact List.find?_eq_none.mp hg j hj hpj
      | some j =>
        rw [hstep, hg]
        simp
    · intro hall
      have := hall elem hmem
      rw [helem] at this
      cases this

theorem essential_screen_spec_witness :
    (screen_essential Mw [1, 2, 3]).toFinset =
      ([1, 2, 3] : List Nat).toFinset \ (get_essential_genes Mw).toFinset :=
  (essential_screen_spec Mw [1, 2, 3]).2.2

theorem screens_shrink_witness :
    (prune_genes_to_remove Mw gtrW).toFinset ⊆ (gtrW.map Gene.id).toFinset :=
  (screens_shrink Mw [2, 3] gtrW).2.2.2.2.2.2

theorem prune_order_and_lethal_spec_witness :
    prune_genes_to_remove Mw gtrW =
      screen_synthetic_lethal Mw
        (screen_exchange Mw (screen_essential Mw (gtrW.map Gene.id))) :=
  (prune_order_and_lethal_spec Mw gtrW [1, 2]).1

theorem compute_genes_to_remove_verbose_irrelevant_witness :
    compute_genes_to_remove Mw [1, 3] true =
      compute_genes_to_remove Mw [1, 3] false :=
  compute_genes_to_remove_verbose_irrelevant Mw [1, 3]

theorem prune_genes_to_remove_frame_witness :
    (prune_genes_to_removeS Mw gtrW).2 = Mw :=
  (prune_genes_to_remove_frame Mw gtrW).1

theorem get_tair_id_spec_witness :
    get_tair_id_from_description
        ("[db_xref=GeneID:5,TAIR:AT1G01010]".toList) =
      tair_id_described ("[db_xref=GeneID:5,TAIR:AT1G01010]".toList) :=
  (get_tair_id_spec ("[db_xref=GeneID:5,TAIR:AT1G01010]".toList)).1

end BuildModel
